import Mathlib

/-!
Shallow embedding of `src/PES1UG23CS469/inventory_system.py`.

The module manages an inventory: a Python `dict` mapping item names to
quantities.  We model:

* Python values that can appear as dict values (JSON-representable values
  plus booleans) as the inductive type `PyVal`;
* the inventory dict as an insertion-ordered association list with string
  keys (every claim quantifies over string item names; Python dict keys
  are unique, which the association-list operations below respect);
* the filesystem as a total map from paths to file contents, where the
  `json` standard library is modelled at the level of parsed JSON values:
  `json.dump` stores the dict as a JSON object value and `json.load`
  returns the stored value (serialisation to text is the library's job,
  not this repository's code);
* `logging` calls as a list of emitted severities appended by each
  operation, and `datetime.now()` as an explicit `now : String` argument.

Python exceptions that the source catches (`KeyError`, `TypeError` in
`remove_item`; `FileNotFoundError`, `json.JSONDecodeError` in `load_data`)
are folded into the corresponding branches; a `TypeError` that the source
does not catch (the `+` in `add_item` with a non-numeric stored value)
surfaces as `Except.error`.
-/

/-- Python run-time values relevant to this module: integers, booleans
(which Python treats as a subtype of `int`), strings, `None`, lists and
string-keyed dicts (the JSON-representable shapes `json.load` can
produce; the module never manipulates floats). -/
inductive PyVal where
  | int (n : Int)
  | bool (b : Bool)
  | str (s : String)
  | pyNone
  | list (l : List PyVal)
  | obj (m : List (String × PyVal))

/-- Numeric view of a Python value: `int` is itself, `bool` counts as
`0`/`1` (Python bool is an `int` subtype, so arithmetic and comparisons
accept it); every other value is non-numeric and makes `-`, `+`, `<=`
against an integer raise `TypeError`. -/
def PyVal.toNum? : PyVal → Option Int
  | .int n => some n
  | .bool b => some (if b then 1 else 0)
  | _ => Option.none

/-- Whether a Python value supports integer arithmetic (`int` or `bool`). -/
def isNumeric (v : PyVal) : Bool :=
  (PyVal.toNum? v).isSome

/-- Python `isinstance(v, int)`: true exactly for `int` and `bool`
(Python's `bool` is a subclass of `int`). -/
def pyIsInstInt : PyVal → Bool
  | .int _ => true
  | .bool _ => true
  | _ => false

/-- Python `str(v)` / f-string rendering, for the values that can reach
the log-message interpolation in `add_item` (after the `isinstance`
check the interpolated quantity is an `int` or `bool`; the remaining
cases are unreachable there and rendered approximately). -/
def pyStr : PyVal → String
  | .int n => toString n
  | .bool b => if b then "True" else "False"
  | .str s => s
  | .pyNone => "None"
  | .list _ => "[...]"
  | .obj _ => "..."

/-- The inventory dict: an insertion-ordered association list from item
name to stored value.  Python guarantees key uniqueness; the operations
below agree with Python dict semantics on every state reachable from a
dict. -/
abbrev Dict := List (String × PyVal)

/-- Python `d[k]` lookup / `k in d`: first (hence, for a dict, the only)
binding of `k`. -/
def dget? : Dict → String → Option PyVal
  | [], _ => Option.none
  | (k, v) :: rest, key => if k = key then some v else dget? rest key

/-- Python `d.get(k, default)`. -/
def dgetD (d : Dict) (key : String) (dflt : PyVal) : PyVal :=
  (dget? d key).getD dflt

/-- Python `d[k] = v`: replaces the binding in place if `k` is present,
otherwise appends it (insertion order). -/
def dset : Dict → String → PyVal → Dict
  | [], key, val => [(key, val)]
  | (k, v) :: rest, key, val =>
    if k = key then (k, val) :: rest else (k, v) :: dset rest key val

/-- Python `del d[k]`: removes the binding of `k`.  A dict binds a key at
most once, so removing every occurrence coincides with Python's removal
of the single one. -/
def ddel : Dict → String → Dict
  | [], _ => []
  | (k, v) :: rest, key =>
    if k = key then ddel rest key else (k, v) :: ddel rest key

/-- Severity of a `logging` call emitted by an operation. -/
inductive Severity where
  | info
  | warning
  | error
  deriving DecidableEq

/-- A Python exception that propagates out of an embedded function
(the source leaves the `TypeError` of `add_item`'s `+` uncaught). -/
inductive PyErr where
  | typeError
  deriving DecidableEq

/-- Result of a successful `add_item` call: the updated dict, the updated
caller-supplied action log, and the logging signals emitted. -/
structure AddOut where
  stock : Dict
  logs : List String
  signals : List Severity

/-- `add_item(stock_data, item, qty, logs)` (lines 16-43 of the source).
`logs=None` defaults to a fresh empty list; `datetime.now()` is the
explicit `now` argument.  Rejects an empty (falsy) item name with a
warning and a non-`int` quantity with an error, both without mutation;
otherwise sets `stock_data[item] = stock_data.get(item, 0) + qty`,
appends a timestamped entry to `logs` and emits an info signal.  The `+`
raises `TypeError` when the stored prior value is non-numeric; the
source does not catch it. -/
def add_item (stock_data : Dict) (item : String) (qty : PyVal)
    (logs0 : Option (List String)) (now : String) : Except PyErr AddOut :=
  let logs := logs0.getD []
  if item = "" then
    Except.ok ⟨stock_data, logs, [Severity.warning]⟩
  else if !(pyIsInstInt qty) then
    Except.ok ⟨stock_data, logs, [Severity.error]⟩
  else
    match PyVal.toNum? (dgetD stock_data item (PyVal.int 0)), PyVal.toNum? qty with
    | some a, some b =>
      Except.ok ⟨dset stock_data item (PyVal.int (a + b)),
        logs ++ [now ++ ": Added " ++ pyStr qty ++ " of " ++ item],
        [Severity.info]⟩
    | _, _ => Except.error PyErr.typeError

/-- `remove_item(stock_data, item, qty)` (lines 46-69 of the source).
`stock_data[item] -= qty` raises `KeyError` (caught: warning, no
mutation) when `item` is absent, and `TypeError` (caught: error, no
mutation) when the stored value or `qty` is non-numeric.  On success the
decremented value is stored; if it is `<= 0` the key is deleted and an
info signal emitted, otherwise nothing is logged. -/
def remove_item (stock_data : Dict) (item : String) (qty : PyVal) :
    Dict × List Severity :=
  match dget? stock_data item with
  | Option.none => (stock_data, [Severity.warning])
  | some v =>
    match PyVal.toNum? v, PyVal.toNum? qty with
    | some a, some b =>
      let stock1 := dset stock_data item (PyVal.int (a - b))
      if a - b ≤ 0 then (ddel stock1 item, [Severity.info])
      else (stock1, [])
    | _, _ => (stock_data, [Severity.error])

/-- `get_qty(stock_data, item)` (lines 72-83 of the source):
`stock_data.get(item, 0)`. -/
def get_qty (stock_data : Dict) (item : String) : PyVal :=
  dgetD stock_data item (PyVal.int 0)

/-- Contents of a path in the modelled filesystem: no file, a file whose
text is not valid JSON, or a file whose text parses to the JSON value
`v` (`json` library modelled at the parsed-value level). -/
inductive FileContent where
  | absent
  | invalid
  | json (v : PyVal)

/-- The filesystem: what each path currently holds. -/
abbrev FS := String → FileContent

/-- `load_data(file)` (lines 86-110 of the source): returns the parsed
JSON value as-is with an info signal; on `FileNotFoundError` returns the
empty dict with a warning; on `json.JSONDecodeError` returns the empty
dict with an error.  Total: both exceptions are caught. -/
def load_data (fs : FS) (file : String) : PyVal × List Severity :=
  match fs file with
  | FileContent.json v => (v, [Severity.info])
  | FileContent.absent => (PyVal.obj [], [Severity.warning])
  | FileContent.invalid => (PyVal.obj [], [Severity.error])

/-- `save_data(stock_data, file)` (lines 113-129 of the source): writes
`json.dump(stock_data, f, indent=4)`, i.e. stores the dict as a JSON
object at `file`, and emits an info signal.  (The `IOError` branch is an
environment failure outside the modelled filesystem.) -/
def save_data (stock_data : Dict) (fs : FS) (file : String) :
    FS × List Severity :=
  (fun p => if p = file then FileContent.json (PyVal.obj stock_data) else fs p,
   [Severity.info])

/-- Boolean form of "stored value `v` is `<= threshold`" as Python
evaluates `qty <= threshold` with an integer threshold: false is never
returned for a non-numeric `v` — Python raises instead, which
`check_low_items` models separately. -/
def pvLe (v : PyVal) (t : Int) : Bool :=
  match PyVal.toNum? v with
  | some n => decide (n ≤ t)
  | Option.none => false

/-- `check_low_items(stock_data, threshold)` (lines 148-163 of the
source): iterates the dict in order appending every item whose quantity
is `<= threshold`.  A non-numeric stored quantity makes the comparison
raise `TypeError`, which the source does not catch. -/
def check_low_items : Dict → Int → Except PyErr (List String)
  | [], _ => Except.ok []
  | (item, qty) :: rest, threshold =>
    match PyVal.toNum? qty with
    | Option.none => Except.error PyErr.typeError
    | some n =>
      match check_low_items rest threshold with
      | Except.error e => Except.error e
      | Except.ok r =>
        Except.ok (if n ≤ threshold then item :: r else r)

/-- `check_low_items` with its default argument `threshold=5`. -/
def check_low_items_default (stock_data : Dict) : Except PyErr (List String) :=
  check_low_items stock_data 5

/-! ## Association-list lemmas (Python dict semantics) -/

/-- After `d[k] = v`, looking up `k` finds `v`. -/
theorem dget_dset_self (d : Dict) (k : String) (v : PyVal) :
    dget? (dset d k v) k = some v := by
  induction d with
  | nil => simp [dset, dget?]
  | cons hd tl ih =>
    obtain ⟨k1, v1⟩ := hd
    by_cases h : k1 = k <;> simp [dset, dget?, h, ih]

/-- After `del d[k]`, `k` is no longer present. -/
theorem dget_ddel_self (d : Dict) (k : String) :
    dget? (ddel d k) k = Option.none := by
  induction d with
  | nil => simp [ddel, dget?]
  | cons hd tl ih =>
    obtain ⟨k1, v1⟩ := hd
    by_cases h : k1 = k <;> simp [ddel, dget?, h, ih]

/-! ## Claim theorems -/

/-- C1: for every mapping and every key present in it (with an integer
stored quantity), a successful `remove_item` decrements the stored
quantity by `qty`; whenever the result is `<= 0` the key is deleted
entirely (never left at zero or negative), and otherwise the decremented
value is stored; in particular removing 10 from `{"apple": 10}` yields
the empty mapping. -/
theorem remove_item_depletes (stock : Dict) (name : String) (n qty : Int)
    (h : dget? stock name = some (PyVal.int n)) :
    (n - qty ≤ 0 → dget? (remove_item stock name (PyVal.int qty)).1 name = Option.none) ∧
    (0 < n - qty →
      dget? (remove_item stock name (PyVal.int qty)).1 name = some (PyVal.int (n - qty))) ∧
    (remove_item [("apple", PyVal.int 10)] "apple" (PyVal.int 10)).1 = [] := by
  refine ⟨?_, ?_, rfl⟩
  · intro hle
    simp only [remove_item, h, PyVal.toNum?]
    rw [if_pos hle]
    exact dget_ddel_self _ _
  · intro hlt
    simp only [remove_item, h, PyVal.toNum?]
    rw [if_neg (by omega)]
    exact dget_dset_self _ _ _

theorem remove_item_depletes_witness :
    dget? (remove_item [("apple", PyVal.int 10)] "apple" (PyVal.int 10)).1 "apple" =
      Option.none :=
  (remove_item_depletes [("apple", PyVal.int 10)] "apple" 10 10 rfl).1 (by decide)

/-- C2: for every mapping storing an integer quantity `m` for `name`
(`m = 0` when absent, which is exactly `get_qty stock name`), every
non-empty name and every integer `qty`, `add_item` succeeds and a
subsequent `get_qty` returns `m + qty`. -/
theorem add_then_get_qty (stock : Dict) (name : String) (m qty : Int)
    (logs : Option (List String)) (now : String)
    (hname : name ≠ "") (hm : get_qty stock name = PyVal.int m) :
    ∃ out, add_item stock name (PyVal.int qty) logs now = Except.ok out ∧
      get_qty out.stock name = PyVal.int (m + qty) := by
  have hd : dgetD stock name (PyVal.int 0) = PyVal.int m := hm
  refine ⟨⟨dset stock name (PyVal.int (m + qty)),
    (logs.getD []) ++ [now ++ ": Added " ++ pyStr (PyVal.int qty) ++ " of " ++ name],
    [Severity.info]⟩, ?_, ?_⟩
  · simp [add_item, hname, hd, pyIsInstInt, PyVal.toNum?, pyStr]
  · show get_qty (dset stock name (PyVal.int (m + qty))) name = _
    simp [get_qty, dgetD, dget_dset_self]

theorem add_then_get_qty_witness :
    ∃ out, add_item [("apple", PyVal.int 3)] "apple" (PyVal.int 4)
        Option.none "" = Except.ok out ∧
      get_qty out.stock "apple" = PyVal.int (3 + 4) :=
  add_then_get_qty [("apple", PyVal.int 3)] "apple" 3 4 Option.none ""
    (by decide) rfl

/-- C4: `add_item` with an empty (falsy) name, or with a quantity that
is not an integer, leaves the mapping unchanged; the empty name emits a
warning signal and the non-integer quantity (with a non-empty name) an
error signal. -/
theorem add_item_rejects (stock : Dict) (name : String) (qty : PyVal)
    (logs : Option (List String)) (now : String) :
    ((name = "" ∨ pyIsInstInt qty = false) →
      ∃ out, add_item stock name qty logs now = Except.ok out ∧ out.stock = stock) ∧
    add_item stock "" qty logs now =
      Except.ok ⟨stock, logs.getD [], [Severity.warning]⟩ ∧
    (name ≠ "" → pyIsInstInt qty = false →
      add_item stock name qty logs now =
        Except.ok ⟨stock, logs.getD [], [Severity.error]⟩) := by
  have hwarn : add_item stock "" qty logs now =
      Except.ok ⟨stock, logs.getD [], [Severity.warning]⟩ := by
    simp [add_item]
  have herr : ∀ nm : String, nm ≠ "" → pyIsInstInt qty = false →
      add_item stock nm qty logs now =
        Except.ok ⟨stock, logs.getD [], [Severity.error]⟩ := by
    intro nm hnm hq
    simp [add_item, hnm, hq]
  refine ⟨?_, hwarn, herr name⟩
  intro hbad
  by_cases hn : name = ""
  · subst hn
    exact ⟨_, hwarn, rfl⟩
  · rcases hbad with hb | hb
    · exact absurd hb hn
    · exact ⟨_, herr name hn hb, rfl⟩

theorem add_item_rejects_witness :
    add_item [("a", PyVal.int 1)] "x" (PyVal.str "ten") Option.none "" =
      Except.ok ⟨[("a", PyVal.int 1)], [], [Severity.error]⟩ :=
  (add_item_rejects [("a", PyVal.int 1)] "x" (PyVal.str "ten")
    Option.none "").2.2 (by decide) rfl

/-- C8: `get_qty` is total (its type returns a value for every mapping
and name, with no exception path) and returns the stored value for a
present key and `0` for an absent one. -/
theorem get_qty_spec (stock : Dict) (name : String) :
    (dget? stock name = Option.none → get_qty stock name = PyVal.int 0) ∧
    ∀ v, dget? stock name = some v → get_qty stock name = v := by
  constructor
  · intro h
    simp [get_qty, dgetD, h]
  · intro v h
    simp [get_qty, dgetD, h]

theorem get_qty_spec_witness :
    get_qty [("apple", PyVal.int 2)] "missing" = PyVal.int 0 :=
  (get_qty_spec [("apple", PyVal.int 2)] "missing").1 (by simp [dget?])

/-- C9: `add_item` with a non-empty name and an integer `qty` (negative
included) is accepted whenever an integer `m` is stored, stores
`m + qty` and never deletes the key, even when `m + qty <= 0`; in
particular adding `-7` to `{"x": 5}` leaves `x` stored at `-2`, so a
stored quantity can be `<= 0` after an add. -/
theorem add_item_keeps_nonpositive (stock : Dict) (name : String) (m qty : Int)
    (logs : Option (List String)) (now : String)
    (hname : name ≠ "") (hprior : dget? stock name = some (PyVal.int m)) :
    (∃ out, add_item stock name (PyVal.int qty) logs now = Except.ok out ∧
      dget? out.stock name = some (PyVal.int (m + qty))) ∧
    (∃ out2, add_item [("x", PyVal.int 5)] "x" (PyVal.int (-7))
        Option.none "" = Except.ok out2 ∧
      dget? out2.stock "x" = some (PyVal.int (-2)) ∧ (-2 : Int) ≤ 0) := by
  constructor
  · have hd : dgetD stock name (PyVal.int 0) = PyVal.int m := by
      simp [dgetD, hprior]
    refine ⟨⟨dset stock name (PyVal.int (m + qty)),
      (logs.getD []) ++ [now ++ ": Added " ++ pyStr (PyVal.int qty) ++ " of " ++ name],
      [Severity.info]⟩, ?_, ?_⟩
    · simp [add_item, hname, hd, pyIsInstInt, PyVal.toNum?, pyStr]
    · exact dget_dset_self _ _ _
  · exact ⟨⟨[("x", PyVal.int (-2))], ["" ++ ": Added " ++ "-7" ++ " of " ++ "x"],
      [Severity.info]⟩, rfl, rfl, by decide⟩

theorem add_item_keeps_nonpositive_witness :
    ∃ out, add_item [("x", PyVal.int 5)] "x" (PyVal.int (-7))
        Option.none "" = Except.ok out ∧
      dget? out.stock "x" = some (PyVal.int (5 + -7)) :=
  (add_item_keeps_nonpositive [("x", PyVal.int 5)] "x" 5 (-7)
    Option.none "" (by decide) rfl).1

/-- C5: `remove_item` with an absent name leaves the mapping unchanged
and emits a warning; with a present name but a non-numeric stored value
or non-numeric `qty` it leaves the mapping unchanged and emits an
error. -/
theorem remove_item_rejects (stock : Dict) (name : String) (qty : PyVal) :
    (dget? stock name = Option.none →
      remove_item stock name qty = (stock, [Severity.warning])) ∧
    ∀ v, dget? stock name = some v →
      (isNumeric v = false ∨ isNumeric qty = false) →
      remove_item stock name qty = (stock, [Severity.error]) := by
  constructor
  · intro h
    simp [remove_item, h]
  · intro v hv hbad
    rcases hbad with hb | hb
    · have hvn : PyVal.toNum? v = Option.none := by
        cases hval : PyVal.toNum? v
        · rfl
        · simp [isNumeric, hval] at hb
      simp [remove_item, hv, hvn]
    · have hqn : PyVal.toNum? qty = Option.none := by
        cases hval : PyVal.toNum? qty
        · rfl
        · simp [isNumeric, hval] at hb
      cases hval : PyVal.toNum? v
      · simp [remove_item, hv, hval]
      · simp [remove_item, hv, hval, hqn]

theorem remove_item_rejects_witness :
    remove_item [("a", PyVal.int 1)] "orange" (PyVal.int 1) =
      ([("a", PyVal.int 1)], [Severity.warning]) ∧
    remove_item [("a", PyVal.str "x")] "a" (PyVal.int 1) =
      ([("a", PyVal.str "x")], [Severity.error]) :=
  ⟨(remove_item_rejects [("a", PyVal.int 1)] "orange" (PyVal.int 1)).1
      (by simp [dget?]),
   (remove_item_rejects [("a", PyVal.str "x")] "a" (PyVal.int 1)).2
      (PyVal.str "x") (by simp [dget?]) (Or.inl rfl)⟩

/-- Helper for C7: with integer quantities throughout, `check_low_items`
computes the in-order filter of the dict by `quantity <= threshold`,
projected to the item names. -/
theorem check_low_items_eq_filter (stock : Dict) (t : Int)
    (h : ∀ p ∈ stock, ∃ n : Int, p.2 = PyVal.int n) :
    check_low_items stock t =
      Except.ok ((stock.filter (fun p => pvLe p.2 t)).map Prod.fst) := by
  induction stock with
  | nil => rfl
  | cons hd tl ih =>
    obtain ⟨item, qty⟩ := hd
    obtain ⟨n, hn⟩ := h (item, qty) (by simp)
    simp only at hn
    subst hn
    have htl : ∀ p ∈ tl, ∃ n : Int, p.2 = PyVal.int n := by
      intro p hp
      exact h p (by simp [hp])
    by_cases hle : n ≤ t <;>
      simp [check_low_items, PyVal.toNum?, ih htl, pvLe, hle]

/-- C7: with integer stored quantities, `check_low_items` returns exactly
the names whose quantity is `<= threshold`, in mapping iteration order;
the threshold defaults to 5; and on `{"a": 1, "b": 6, "c": 5}` with
threshold 5 it returns exactly `["a", "c"]`. -/
theorem check_low_items_spec (stock : Dict) (t : Int)
    (h : ∀ p ∈ stock, ∃ n : Int, p.2 = PyVal.int n) :
    check_low_items stock t =
      Except.ok ((stock.filter (fun p => pvLe p.2 t)).map Prod.fst) ∧
    check_low_items_default stock = check_low_items stock 5 ∧
    check_low_items [("a", PyVal.int 1), ("b", PyVal.int 6), ("c", PyVal.int 5)] 5 =
      Except.ok ["a", "c"] :=
  ⟨check_low_items_eq_filter stock t h, rfl, rfl⟩

theorem check_low_items_spec_witness :
    check_low_items [("a", PyVal.int 1), ("b", PyVal.int 6), ("c", PyVal.int 5)] 5 =
      Except.ok ["a", "c"] :=
  (check_low_items_spec [("a", PyVal.int 1), ("b", PyVal.int 6), ("c", PyVal.int 5)] 5
    (by
      intro p hp
      simp at hp
      rcases hp with h1 | h1 | h1 <;> subst h1 <;> exact ⟨_, rfl⟩)).2.2

/-- C3: saving a string-keyed, integer-valued mapping and loading from
the same path returns a mapping with the same key set and the same value
at every key. -/
theorem save_load_roundtrip (stock : Dict) (fs : FS) (path : String)
    (_h : ∀ p ∈ stock, ∃ n : Int, p.2 = PyVal.int n) :
    ∃ m : Dict, (load_data (save_data stock fs path).1 path).1 = PyVal.obj m ∧
      ∀ k, dget? m k = dget? stock k := by
  refine ⟨stock, ?_, fun k => rfl⟩
  simp [save_data, load_data]

theorem save_load_roundtrip_witness :
    ∃ m : Dict,
      (load_data (save_data [("apple", PyVal.int 3)]
          (fun _ => FileContent.absent) "inventory.json").1 "inventory.json").1 =
        PyVal.obj m ∧
      ∀ k, dget? m k = dget? [("apple", PyVal.int 3)] k :=
  save_load_roundtrip [("apple", PyVal.int 3)] (fun _ => FileContent.absent)
    "inventory.json"
    (by
      intro p hp
      simp at hp
      subst hp
      exact ⟨3, rfl⟩)

/-- C6: `load_data` returns the empty mapping, with no exception
reaching the caller (its return type is total), when the file is absent
(warning signal) and when the file holds invalid JSON (error signal). -/
theorem load_data_missing_or_invalid (fs : FS) (path : String) :
    (fs path = FileContent.absent →
      load_data fs path = (PyVal.obj [], [Severity.warning])) ∧
    (fs path = FileContent.invalid →
      load_data fs path = (PyVal.obj [], [Severity.error])) := by
  constructor <;> intro h <;> simp [load_data, h]

theorem load_data_missing_or_invalid_witness :
    load_data (fun _ => FileContent.absent) "inventory.json" =
      (PyVal.obj [], [Severity.warning]) ∧
    load_data (fun _ => FileContent.invalid) "bad.json" =
      (PyVal.obj [], [Severity.error]) :=
  ⟨(load_data_missing_or_invalid (fun _ => FileContent.absent) "inventory.json").1 rfl,
   (load_data_missing_or_invalid (fun _ => FileContent.invalid) "bad.json").2 rfl⟩

/-- C10: `load_data` performs no shape validation: whenever the file
parses to any JSON value `v` (array, string, number, object with
non-integer values, ...), it returns `v` as-is with an info signal. -/
theorem load_data_no_validation (fs : FS) (path : String) (v : PyVal)
    (h : fs path = FileContent.json v) :
    load_data fs path = (v, [Severity.info]) := by
  simp [load_data, h]

theorem load_data_no_validation_witness :
    load_data (fun _ => FileContent.json (PyVal.list [PyVal.int 1, PyVal.str "a"]))
        "f.json" =
      (PyVal.list [PyVal.int 1, PyVal.str "a"], [Severity.info]) :=
  load_data_no_validation (fun _ => FileContent.json
    (PyVal.list [PyVal.int 1, PyVal.str "a"])) "f.json"
    (PyVal.list [PyVal.int 1, PyVal.str "a"]) rfl
